import Mathlib

/-!
Verification of the pollable-file / waiter core of the Occlum async I/O
runtime, shallowly embedded from:
  - src/libos/crates/async-io/src/file/pollable.rs  (Async wrapper)
  - src/libos/crates/async-rt/src/wait/waiter.rs    (Waiter / Waker / WaitFuture)
  - src/libos/src/net/socket_file.rs                (SocketFile dispatch)
-/

namespace Occlum

/-- Error numbers used by the modelled code paths. -/
inductive Errno
  | EAGAIN
  | EBADF
  | EINVAL
  | EISCONN
  | ETIMEDOUT
  | ENOSYS
  deriving DecidableEq, Repr

deriving instance DecidableEq for Except

/-- Result of an I/O call: bytes transferred or an errno. -/
abbrev IOResult := Except Errno Nat

/-- Model of `res.has_errno(EAGAIN)` on a `Result<usize>`. -/
def hasErrnoEAGAIN : IOResult → Bool
  | .error e => e == Errno.EAGAIN
  | .ok _ => false

/-- Event bitmask (crate async-io `Events`); only bit tests are used by the code. -/
abbrev Events := Nat

/-- Events::IN bit. -/
def EventsIN : Events := 1

/-- Events::OUT bit. -/
def EventsOUT : Events := 4

/-- Model of `events.contains(mask)`: all bits of `mask` are present. -/
def eventsContains (events mask : Events) : Bool := events &&& mask == mask

/-- Status-flag bitmask (crate async-io `StatusFlags`). -/
abbrev StatusFlags := Nat

/-- StatusFlags::O_NONBLOCK bit (Linux value 0o4000). -/
def O_NONBLOCK : StatusFlags := 2048

/-- Model of `flags.contains(StatusFlags::O_NONBLOCK)`. -/
def flagsContains (flags mask : StatusFlags) : Bool := flags &&& mask == mask

/-- Source `Async::should_io_return`: return the result to the caller iff the
file is non-blocking or the result is not the would-block error. -/
def should_io_return (res : IOResult) (is_nonblocking : Bool) : Bool :=
  is_nonblocking || !(hasErrnoEAGAIN res)

/-- Source `Async::is_nonblocking`: read the status flags and test O_NONBLOCK. -/
def is_nonblocking (flags : StatusFlags) : Bool :=
  flagsContains flags O_NONBLOCK

/-- Environment for one Async read/readv/write/writev call: the result of the
fast-path inner call, and for every slow-path iteration `i` the events returned
by `poll_by` and the result of the inner call retried there. The inner file is
an external collaborator, so its responses are oracle data. -/
structure Env where
  fastRes : IOResult
  slowEvents : Nat → Events
  slowRes : Nat → IOResult

/-- Observable trace of one Async read/readv/write/writev call:
the returned result (`none` when the fuel bound is reached while the call is
still looping), the number of `Poller::new` allocations, the identity of the
poller passed to each `poll_by` call (ids number allocations from 0 in call
order), and the number of `poller.wait().await` suspensions executed. -/
structure Trace where
  result : Option IOResult
  pollerAllocs : Nat
  pollCalls : List Nat
  awaits : Nat
  deriving DecidableEq, Repr

/-- The slow-path loop of `Async::read`/`readv`/`write`/`writev` (source lines
79-88 and their three clones): each iteration calls `poll_by(mask, Some(&mut
poller))` on the one poller allocated before the loop, retries the inner I/O
when the direction bit is ready, returns when `should_io_return`, and otherwise
suspends on `poller.wait().await` and iterates. Fuel bounds the number of
iterations; returns (result, poller ids passed to poll_by, awaits executed). -/
def slowLoop (mask : Events) (is_nb : Bool) (env : Env) (pollerId : Nat)
    (i : Nat) : Nat → Option IOResult × List Nat × Nat
  | 0 => (none, [], 0)
  | fuel + 1 =>
    if eventsContains (env.slowEvents i) mask && should_io_return (env.slowRes i) is_nb then
      (some (env.slowRes i), [pollerId], 0)
    else
      let rest := slowLoop mask is_nb env pollerId (i + 1) fuel
      (rest.1, pollerId :: rest.2.1, rest.2.2 + 1)

/-- The common body of `Async::read`/`readv`/`write`/`writev` (they differ only
in the direction bit and which inner op is retried; both are environment data
here). `flagsAt n` gives the status flags as seen by the n-th read of the flag
word during the call; the source reads the flags exactly once, at entry, so
only `flagsAt 0` is consulted. The fast path tries the inner op once and
returns unless it must wait; the slow path allocates a single `Poller` (id 0)
and runs `slowLoop`. -/
def asyncOp (mask : Events) (flagsAt : Nat → StatusFlags) (env : Env)
    (fuel : Nat) : Trace :=
  let is_nb := is_nonblocking (flagsAt 0)
  let res := env.fastRes
  if should_io_return res is_nb then
    { result := some res, pollerAllocs := 0, pollCalls := [], awaits := 0 }
  else
    let out := slowLoop mask is_nb env 0 0 fuel
    { result := out.1, pollerAllocs := 1, pollCalls := out.2.1, awaits := out.2.2 }

/-- `Async::read`: direction bit Events::IN. -/
def Async.read (flagsAt : Nat → StatusFlags) (env : Env) (fuel : Nat) : Trace :=
  asyncOp EventsIN flagsAt env fuel

/-- `Async::readv`: direction bit Events::IN. -/
def Async.readv (flagsAt : Nat → StatusFlags) (env : Env) (fuel : Nat) : Trace :=
  asyncOp EventsIN flagsAt env fuel

/-- `Async::write`: direction bit Events::OUT. -/
def Async.write (flagsAt : Nat → StatusFlags) (env : Env) (fuel : Nat) : Trace :=
  asyncOp EventsOUT flagsAt env fuel

/-- `Async::writev`: direction bit Events::OUT. -/
def Async.writev (flagsAt : Nat → StatusFlags) (env : Env) (fuel : Nat) : Trace :=
  asyncOp EventsOUT flagsAt env fuel

/-! Waiter / Waker / WaitFuture (waiter.rs). The raw waker handle supplied by
the executor is opaque to the code; tokens (`Nat`) stand for distinct handles. -/

/-- The states of a waiter (`WaiterState` in waiter.rs). -/
inductive WaiterState
  | Idle
  | Waiting
  | Woken
  deriving DecidableEq, Repr

/-- Opaque executor wake handle (`core::task::Waker`, aliased RawWaker). -/
abbrev RawWaker := Nat

/-- The shared state of a `WaiterInner`: the atomic state field and the
mutex-guarded raw-waker slot. (The queue id and intrusive link belong to the
WaiterQueue machinery, which none of the modelled operations touch.) -/
structure WaiterInner where
  state : WaiterState
  raw_waker : Option RawWaker
  deriving DecidableEq, Repr

/-- `WaiterInner::new`: state Idle, empty waker slot. -/
def WaiterInner.new : WaiterInner := ⟨.Idle, none⟩

/-- Observable effect of one `wake()` call: the returned `Option<()>`
(`some ()` = success, `none` = already woken), the waiter state after the
call, and the raw waker that was invoked, if any. -/
structure WakeEffect where
  ret : Option Unit
  st : WaiterInner
  invoked : Option RawWaker
  deriving DecidableEq, Repr

/-- `WaiterInner::wake` (waiter.rs lines 135-151), under the raw-waker mutex:
Idle sets Woken and succeeds; Waiting sets Woken, takes the stored raw waker
(`unwrap` — the outer `none` marks the panic on an empty slot) and invokes it;
Woken is a no-op returning `None`. -/
def WaiterInner.wake (w : WaiterInner) : Option WakeEffect :=
  match w.state with
  | .Idle => some ⟨some (), { w with state := .Woken }, none⟩
  | .Waiting =>
    match w.raw_waker with
    | some rw => some ⟨some (), ⟨.Woken, none⟩, some rw⟩
    | none => none
  | .Woken => some ⟨none, w, none⟩

/-- Outcome of polling a future once. -/
inductive PollResult
  | Pending
  | Ready
  deriving DecidableEq, Repr

/-- `WaitFuture::poll` (waiter.rs lines 170-188), under the raw-waker mutex:
Idle stores the task's waker, moves to Waiting and is Pending; Waiting
overwrites the stored waker and stays Pending; Woken is Ready and touches
nothing. Returns the poll outcome and the waiter state after the call. -/
def WaitFuture.poll (w : WaiterInner) (cx : RawWaker) : PollResult × WaiterInner :=
  match w.state with
  | .Idle => (.Pending, ⟨.Waiting, some cx⟩)
  | .Waiting => (.Pending, { w with raw_waker := some cx })
  | .Woken => (.Ready, w)

/-- `Drop for WaitFuture` (waiter.rs lines 191-199): if the waiter is Waiting,
clear the waker slot and revert to Idle; otherwise leave everything unchanged. -/
def WaitFuture.drop (w : WaiterInner) : WaiterInner :=
  match w.state with
  | .Waiting => ⟨.Idle, none⟩
  | _ => w

/-- `Waiter::reset` (waiter.rs lines 38-40): unconditionally store Idle; the
waker slot is not touched. -/
def Waiter.reset (w : WaiterInner) : WaiterInner := { w with state := .Idle }

/-- The documented Waiter invariant: the state is Waiting iff the raw-waker
slot holds a waker. -/
def WaiterInv (w : WaiterInner) : Prop := w.state = .Waiting ↔ w.raw_waker.isSome

instance (w : WaiterInner) : Decidable (WaiterInv w) := by
  unfold WaiterInv; infer_instance

/-! Waiter::wait_timeout with a Some duration (waiter.rs lines 51-73). The
TimerEntry type and the select machinery live outside src. -/

/-- Durations in the model are abstract time units. -/
abbrev Duration := Nat

/-- `DURATION_ZERO` from crate::time. -/
def DURATION_ZERO : Duration := 0

/-- Modelled from the spec: `TimerEntry` (crate::time, not in src) is created
with the caller's duration; `remained_duration` reports what is left of it,
and the timer future becomes ready once the whole duration elapsed. -/
structure TimerEntry where
  total : Duration
  elapsed : Duration
  deriving DecidableEq, Repr

/-- Modelled from the spec: `TimerEntry::remained_duration`. -/
def TimerEntry.remained_duration (t : TimerEntry) : Duration := t.total - t.elapsed

/-- Modelled from the spec: the timer future is ready iff the duration elapsed. -/
def TimerEntry.expired (t : TimerEntry) : Bool := t.total ≤ t.elapsed

/-- `Waiter::wait_timeout(Some(d))` at its decisive poll, with the branch
bodies from waiter.rs lines 56-68. Modelled from the spec: `select_biased!`
(external) polls the listed futures in order, so the wait future (first) wins
any tie. The wait future is polled on waiter state `w` with handle `cx`; if it
is Ready the call returns Ok and writes the timer's remaining duration back;
otherwise, if the timer expired, the call writes zero back and returns the
timed-out error; otherwise the select is still pending (`none`). `elapsed` is
the time consumed when this poll happens. -/
def wait_timeout_some (w : WaiterInner) (cx : RawWaker) (d elapsed : Duration) :
    Option ((Except Errno Unit) × Duration) :=
  let timer_entry : TimerEntry := ⟨d, elapsed⟩
  if (WaitFuture.poll w cx).1 = .Ready then
    some (.ok (), timer_entry.remained_duration)
  else if timer_entry.expired then
    some (.error .ETIMEDOUT, DURATION_ZERO)
  else
    none

/-! SocketFile dispatch (socket_file.rs). The four inner socket types are
host_socket instantiations living outside src; each is modelled by the results
its operations would return, plus (for streams) its connection state. -/

/-- `Shutdown` directions. -/
inductive Shutdown
  | Read
  | Write
  | Both
  deriving DecidableEq, Repr

/-- Send flags are opaque to the dispatch layer. -/
abbrev SendFlags := Nat

/-- Ipv4 socket addresses, opaque at this layer. -/
abbrev Ipv4SocketAddr := Nat

/-- Unix socket addresses, opaque at this layer. -/
abbrev UnixAddr := Nat

/-- Modelled from the spec: `AnyAddr` (not in src) is a tagged union of the
address families plus the unspecified address. -/
inductive AnyAddr
  | Ipv4 (a : Ipv4SocketAddr)
  | Unix (a : UnixAddr)
  | Unspec
  deriving DecidableEq, Repr

/-- Modelled from the spec: `AnyAddr::is_unspec`. -/
def AnyAddr.is_unspec : AnyAddr → Bool
  | .Unspec => true
  | _ => false

/-- Modelled from the spec: `AnyAddr::to_ipv4` coerces to the Ipv4 family and
fails with the invalid-argument error on any other address (including the
unspecified one). -/
def AnyAddr.to_ipv4 : AnyAddr → Except Errno Ipv4SocketAddr
  | .Ipv4 a => .ok a
  | _ => .error .EINVAL

/-- Modelled from the spec: `AnyAddr::to_unix`, the Unix-family coercion. -/
def AnyAddr.to_unix : AnyAddr → Except Errno UnixAddr
  | .Unix a => .ok a
  | _ => .error .EINVAL

/-- Modelled from the spec: a `host_socket::StreamSocket` (not in src) as seen
through the dispatch layer: its connection state and the results its
operations would return if invoked. `A` is the typed address family. -/
structure StreamSock (A : Type) where
  connected : Bool
  listenRes : Nat → Except Errno Unit
  acceptRes : Bool → Except Errno Nat
  shutdownRes : Shutdown → Except Errno Unit
  connectRes : A → Except Errno Unit
  sendmsgRes : SendFlags → Except Errno Nat

/-- Modelled from the spec: a `host_socket::DatagramSocket` (not in src) as
seen through the dispatch layer. `connectRes none` is disassociation. -/
structure DatagramSock (A : Type) where
  connectRes : Option A → Except Errno Unit
  sendmsgRes : Option A → SendFlags → Except Errno Nat

/-- The `AnySocket` enum of socket_file.rs. -/
inductive AnySocket
  | UnixStream (s : StreamSock UnixAddr)
  | Ipv4Stream (s : StreamSock Ipv4SocketAddr)
  | UnixDatagram (s : DatagramSock UnixAddr)
  | Ipv4Datagram (s : DatagramSock Ipv4SocketAddr)

/-- The `SocketFile` wrapper of socket_file.rs. -/
structure SocketFile where
  socket : AnySocket

/-- `SocketFile::is_stream`. -/
def SocketFile.is_stream (sf : SocketFile) : Bool :=
  match sf.socket with
  | .Ipv4Stream _ => true
  | .UnixStream _ => true
  | _ => false

/-- `SocketFile::listen` (socket_file.rs lines 221-229): stream variants defer
to the inner socket; every other variant returns the invalid-argument error. -/
def SocketFile.listen (sf : SocketFile) (backlog : Nat) : Except Errno Unit :=
  match sf.socket with
  | .Ipv4Stream s => s.listenRes backlog
  | .UnixStream s => s.listenRes backlog
  | _ => .error .EINVAL

/-- `SocketFile::accept` (socket_file.rs lines 231-249): stream variants defer
to the inner socket (the accepted inner stream is an opaque token here); every
other variant returns the invalid-argument error. -/
def SocketFile.accept (sf : SocketFile) (nonblocking : Bool) : Except Errno Nat :=
  match sf.socket with
  | .Ipv4Stream s => s.acceptRes nonblocking
  | .UnixStream s => s.acceptRes nonblocking
  | _ => .error .EINVAL

/-- `SocketFile::shutdown` (socket_file.rs lines 362-370): stream variants
defer to the inner socket; every other variant returns the invalid-argument
error. -/
def SocketFile.shutdown (sf : SocketFile) (how : Shutdown) : Except Errno Unit :=
  match sf.socket with
  | .Ipv4Stream s => s.shutdownRes how
  | .UnixStream s => s.shutdownRes how
  | _ => .error .EINVAL

/-- `SocketFile::connect` (socket_file.rs lines 165-195): streams coerce the
address to their family and connect; datagrams map the unspecified address to
`none` (disassociation) and otherwise coerce before connecting. -/
def SocketFile.connect (sf : SocketFile) (addr : AnyAddr) : Except Errno Unit :=
  match sf.socket with
  | .Ipv4Stream s => do
    let a ← addr.to_ipv4
    s.connectRes a
  | .UnixStream s => do
    let a ← addr.to_unix
    s.connectRes a
  | .Ipv4Datagram s =>
    if addr.is_unspec then s.connectRes none
    else do
      let a ← addr.to_ipv4
      s.connectRes (some a)
  | .UnixDatagram s =>
    if addr.is_unspec then s.connectRes none
    else do
      let a ← addr.to_unix
      s.connectRes (some a)

/-- `SocketFile::sendmsg` (socket_file.rs lines 297-336). The second component
records whether the inner socket's sendmsg was invoked: streams refuse a Some
address with the already-connected error before touching the inner socket;
datagrams coerce a Some address (propagating a failed coercion without calling
the inner socket) and pass the optional typed address through. -/
def SocketFile.sendmsg (sf : SocketFile) (addr : Option AnyAddr)
    (flags : SendFlags) : (Except Errno Nat) × Bool :=
  match sf.socket with
  | .Ipv4Stream s =>
    if addr.isSome then (.error .EISCONN, false)
    else (s.sendmsgRes flags, true)
  | .UnixStream s =>
    if addr.isSome then (.error .EISCONN, false)
    else (s.sendmsgRes flags, true)
  | .Ipv4Datagram s =>
    match addr with
    | some a =>
      match a.to_ipv4 with
      | .ok ip => (s.sendmsgRes (some ip) flags, true)
      | .error e => (.error e, false)
    | none => (s.sendmsgRes none flags, true)
  | .UnixDatagram s =>
    match addr with
    | some a =>
      match a.to_unix with
      | .ok ua => (s.sendmsgRes (some ua) flags, true)
      | .error e => (.error e, false)
    | none => (s.sendmsgRes none flags, true)

/-- Any result the slow loop returns (in blocking mode) passed the
`should_io_return _ false` test, so it is not the would-block error, and it is
the verbatim result of one of the inner retries. -/
theorem slowLoop_result_sound (mask : Events) (env : Env) (pid : Nat) :
    ∀ fuel i r, (slowLoop mask false env pid i fuel).1 = some r →
      hasErrnoEAGAIN r = false ∧ ∃ j, r = env.slowRes j := by
  intro fuel
  induction fuel with
  | zero =>
    intro i r h
    simp [slowLoop] at h
  | succ n ih =>
    intro i r h
    rw [slowLoop] at h
    split at h
    · rename_i hc
      have hr : env.slowRes i = r := by simpa using h
      have h2 : should_io_return (env.slowRes i) false = true :=
        (Bool.and_eq_true _ _ |>.mp hc).2
      have h3 : hasErrnoEAGAIN (env.slowRes i) = false := by
        simpa [should_io_return] using h2
      exact ⟨hr ▸ h3, i, hr.symm⟩
    · exact ih (i + 1) r (by simpa using h)

/-- Every poller id the slow loop passes to `poll_by` is the id of the single
poller it was given. -/
theorem slowLoop_pollCalls (mask : Events) (is_nb : Bool) (env : Env) (pid : Nat) :
    ∀ fuel i, ∀ p ∈ (slowLoop mask is_nb env pid i fuel).2.1, p = pid := by
  intro fuel
  induction fuel with
  | zero =>
    intro i p hp
    simp [slowLoop] at hp
  | succ n ih =>
    intro i p hp
    rw [slowLoop] at hp
    split at hp
    · simpa using hp
    · simp only [List.mem_cons] at hp
      rcases hp with hp | hp
      · exact hp
      · exact ih (i + 1) p hp

/-- C1: with O_NONBLOCK set at entry, read/readv/write/writev (all instances
of `asyncOp`) return exactly the fast-path inner result — would-block
included — allocate no poller, make no `poll_by` call and never suspend; and
since the flag word is read only once (index 0), any mutation of the flags
after entry leaves the whole call trace unchanged. -/
theorem async_nonblocking_fast_path (mask : Events) (flagsAt : Nat → StatusFlags)
    (env : Env) (fuel : Nat)
    (h : flagsContains (flagsAt 0) O_NONBLOCK = true) :
    asyncOp mask flagsAt env fuel
      = { result := some env.fastRes, pollerAllocs := 0, pollCalls := [], awaits := 0 }
    ∧ ∀ flagsB : Nat → StatusFlags, flagsB 0 = flagsAt 0 →
        asyncOp mask flagsB env fuel = asyncOp mask flagsAt env fuel := by
  constructor
  · unfold asyncOp is_nonblocking
    rw [h]
    simp [should_io_return]
  · intro flagsB hB
    unfold asyncOp
    rw [hB]

/-- C1 witness: a non-blocking read whose inner call would block returns the
would-block error directly, touching no poller. -/
theorem async_nonblocking_fast_path_witness :
    asyncOp 1 (fun _ => 2048) ⟨.error .EAGAIN, fun _ => 0, fun _ => .ok 0⟩ 9
      = { result := some (.error .EAGAIN), pollerAllocs := 0, pollCalls := [], awaits := 0 } :=
  (async_nonblocking_fast_path 1 (fun _ => 2048)
    ⟨.error .EAGAIN, fun _ => 0, fun _ => .ok 0⟩ 9 (by decide)).1

/-- C2: with O_NONBLOCK clear at entry, whenever the call returns, the result
is never the would-block error and is the verbatim result of one inner call
(the fast-path try or one slow-path retry); in particular any non-EAGAIN
fast-path result — bytes or a different error — is returned as is. -/
theorem async_blocking_never_eagain (mask : Events) (flagsAt : Nat → StatusFlags)
    (env : Env) (fuel : Nat)
    (hnb : flagsContains (flagsAt 0) O_NONBLOCK = false) :
    (∀ r, (asyncOp mask flagsAt env fuel).result = some r →
        hasErrnoEAGAIN r = false ∧ (r = env.fastRes ∨ ∃ j, r = env.slowRes j))
    ∧ (hasErrnoEAGAIN env.fastRes = false →
        (asyncOp mask flagsAt env fuel).result = some env.fastRes) := by
  unfold asyncOp is_nonblocking
  rw [hnb]
  constructor
  · intro r h
    by_cases hf : should_io_return env.fastRes false = true
    · rw [if_pos hf] at h
      have hr : env.fastRes = r := by simpa using h
      have h3 : hasErrnoEAGAIN env.fastRes = false := by
        simpa [should_io_return] using hf
      exact ⟨hr ▸ h3, .inl hr.symm⟩
    · rw [if_neg hf] at h
      have := slowLoop_result_sound mask env 0 fuel 0 r (by simpa using h)
      exact ⟨this.1, .inr this.2⟩
  · intro hfast
    have hf : should_io_return env.fastRes false = true := by
      simp [should_io_return, hfast]
    rw [if_pos hf]

/-- C2 witness: a blocking read whose fast path succeeds returns those bytes. -/
theorem async_blocking_never_eagain_witness :
    (asyncOp 1 (fun _ => 0) ⟨.ok 5, fun _ => 0, fun _ => .ok 0⟩ 0).result = some (.ok 5) :=
  (async_blocking_never_eagain 1 (fun _ => 0)
    ⟨.ok 5, fun _ => 0, fun _ => .ok 0⟩ 0 (by decide)).2 (by decide)

/-- C3 counterexample: a blocking read that loops twice passes the same poller
(id 0) to `poll_by` on both iterations — only one `Poller::new` happens, before
the loop — so the iterations do not each allocate a fresh poller and a single
poller is reused across iterations, contrary to the claim. -/
theorem async_poller_reuse_counterexample :
    (asyncOp 1 (fun _ => 0) ⟨.error .EAGAIN, fun _ => 0, fun _ => .ok 0⟩ 2).pollCalls = [0, 0]
    ∧ (asyncOp 1 (fun _ => 0) ⟨.error .EAGAIN, fun _ => 0, fun _ => .ok 0⟩ 2).pollerAllocs = 1
    ∧ ¬ (asyncOp 1 (fun _ => 0) ⟨.error .EAGAIN, fun _ => 0, fun _ => .ok 0⟩ 2).pollCalls.Nodup := by
  refine ⟨by decide, by decide, by decide⟩

/-- C3 (amended): the slow path allocates at most one Poller per call (exactly
one when the slow path is entered, allocated before the loop), and every
iteration passes that same single poller (id 0) to `poll_by`, re-subscribing
it each round; no per-iteration fresh Poller exists. -/
theorem async_single_poller_reused (mask : Events) (flagsAt : Nat → StatusFlags)
    (env : Env) (fuel : Nat) :
    (asyncOp mask flagsAt env fuel).pollerAllocs ≤ 1
    ∧ ∀ p ∈ (asyncOp mask flagsAt env fuel).pollCalls, p = 0 := by
  by_cases hf : should_io_return env.fastRes (is_nonblocking (flagsAt 0)) = true
  · simp [asyncOp, hf]
  · refine ⟨by simp [asyncOp, hf], ?_⟩
    simpa [asyncOp, hf] using
      slowLoop_pollCalls mask (is_nonblocking (flagsAt 0)) env 0 fuel 0

/-- C3 amended witness: on a concrete two-iteration run at most one poller is
allocated, and the id 0 found in the poll-call list is the single poller's. -/
theorem async_single_poller_reused_witness :
    (asyncOp 1 (fun _ => 0) ⟨.error .EAGAIN, fun _ => 0, fun _ => .ok 0⟩ 2).pollerAllocs ≤ 1
    ∧ (0 : Nat) = 0 :=
  ⟨(async_single_poller_reused 1 (fun _ => 0)
      ⟨.error .EAGAIN, fun _ => 0, fun _ => .ok 0⟩ 2).1,
    (async_single_poller_reused 1 (fun _ => 0)
      ⟨.error .EAGAIN, fun _ => 0, fun _ => .ok 0⟩ 2).2 0 (by decide)⟩

/-- C4: `wake` observed in Idle sets Woken and succeeds; in Waiting it sets
Woken, takes the stored raw waker and invokes exactly it; in Woken it changes
nothing and returns the already-woken result `none`; and after any successful
wake a subsequent `WaitFuture::poll` returns Ready leaving the waiter
untouched (no waker is stored). -/
theorem waiter_wake_spec (w : WaiterInner) (hinv : WaiterInv w) :
    (w.state = .Idle → w.wake = some ⟨some (), { w with state := .Woken }, none⟩)
    ∧ (w.state = .Waiting → ∃ rw, w.raw_waker = some rw
        ∧ w.wake = some ⟨some (), ⟨.Woken, none⟩, some rw⟩)
    ∧ (w.state = .Woken → w.wake = some ⟨none, w, none⟩)
    ∧ (∀ e, w.wake = some e → e.ret = some () →
        ∀ cx, WaitFuture.poll e.st cx = (.Ready, e.st)) := by
  obtain ⟨s, rw⟩ := w
  cases s with
  | Idle =>
    refine ⟨fun _ => rfl, fun h => by simp at h, fun h => by simp at h, ?_⟩
    intro e he _ cx
    have he2 : e = ⟨some (), ⟨.Woken, rw⟩, none⟩ := by
      simpa [WaiterInner.wake] using he.symm
    subst he2
    rfl
  | Waiting =>
    have hrw : ∃ x, rw = some x := by
      have := hinv.mp rfl
      cases rw with
      | none => simp at this
      | some x => exact ⟨x, rfl⟩
    obtain ⟨x, rfl⟩ := hrw
    refine ⟨fun h => by simp at h, fun _ => ⟨x, rfl, rfl⟩, fun h => by simp at h, ?_⟩
    intro e he _ cx
    have he2 : e = ⟨some (), ⟨.Woken, none⟩, some x⟩ := by
      simpa [WaiterInner.wake] using he.symm
    subst he2
    rfl
  | Woken =>
    refine ⟨fun h => by simp at h, fun h => by simp at h, fun _ => rfl, ?_⟩
    intro e he hret cx
    have he2 : e = ⟨none, ⟨.Woken, rw⟩, none⟩ := by
      simpa [WaiterInner.wake] using he.symm
    subst he2
    simp at hret

/-- C4 witness: waking an Idle waiter yields a Woken waiter on which a poll is
Ready without storing any waker. -/
theorem waiter_wake_spec_witness :
    WaitFuture.poll ⟨WaiterState.Woken, none⟩ 3 = (PollResult.Ready, ⟨WaiterState.Woken, none⟩) :=
  (waiter_wake_spec ⟨.Idle, none⟩ (by decide)).2.2.2 ⟨some (), ⟨.Woken, none⟩, none⟩ rfl rfl 3

/-- C5: at the decisive poll of `wait_timeout(Some(d))`, a woken waiter makes
the call return Ok with the timer's remaining duration written back; an
un-woken waiter with an expired timer makes it return the timed-out error with
zero written back; and the select is biased toward the wait future, so a wake
ready in the same poll as timer expiry still returns Ok, not timeout. -/
theorem wait_timeout_spec (w : WaiterInner) (cx : RawWaker) (d elapsed : Duration) :
    (w.state = .Woken → wait_timeout_some w cx d elapsed
        = some (.ok (), TimerEntry.remained_duration ⟨d, elapsed⟩))
    ∧ (w.state ≠ .Woken → d ≤ elapsed →
        wait_timeout_some w cx d elapsed = some (.error .ETIMEDOUT, 0))
    ∧ (w.state = .Woken → d ≤ elapsed → wait_timeout_some w cx d elapsed
        = some (.ok (), TimerEntry.remained_duration ⟨d, elapsed⟩)) := by
  have hpoll : ((WaitFuture.poll w cx).1 = .Ready) ↔ w.state = .Woken := by
    obtain ⟨s, rw⟩ := w
    cases s <;> simp [WaitFuture.poll]
  refine ⟨?_, ?_, ?_⟩
  · intro hw
    simp [wait_timeout_some, hpoll.mpr hw]
  · intro hw hd
    have hnr : ¬ ((WaitFuture.poll w cx).1 = .Ready) := fun hc => hw (hpoll.mp hc)
    simp [wait_timeout_some, hnr, TimerEntry.expired, DURATION_ZERO, hd]
  · intro hw _
    simp [wait_timeout_some, hpoll.mpr hw]

/-- C5 witness: S4-style scenario — woken at 10 of 100 units returns Ok and
writes 90 back; S3-style scenario — never woken, timer expired at 100 of 100,
returns the timed-out error and writes 0 back. -/
theorem wait_timeout_spec_witness :
    wait_timeout_some ⟨WaiterState.Woken, none⟩ 0 100 10 = some (.ok (), 90)
    ∧ wait_timeout_some ⟨WaiterState.Idle, none⟩ 0 100 100 = some (.error .ETIMEDOUT, 0) :=
  ⟨by simpa using (wait_timeout_spec ⟨.Woken, none⟩ 0 100 10).1 rfl,
    (wait_timeout_spec ⟨.Idle, none⟩ 0 100 100).2.1 (by decide) (by decide)⟩

/-- C6: dropping a WaitFuture whose waiter is Waiting clears the waker slot
and reverts the state to Idle; dropping it in Idle or Woken leaves the waiter
(state and slot) unchanged. -/
theorem waitfuture_drop_spec (w : WaiterInner) :
    (w.state = .Waiting → WaitFuture.drop w = ⟨.Idle, none⟩)
    ∧ (w.state ≠ .Waiting → WaitFuture.drop w = w) := by
  obtain ⟨s, rw⟩ := w
  cases s <;> simp [WaitFuture.drop]

/-- C6 witness: dropping a Waiting future with a stored waker leaves an Idle
waiter with an empty slot. -/
theorem waitfuture_drop_spec_witness :
    WaitFuture.drop ⟨WaiterState.Waiting, some 5⟩ = ⟨WaiterState.Idle, none⟩ :=
  (waitfuture_drop_spec ⟨.Waiting, some 5⟩).1 rfl

/-- C7: the invariant (state is Waiting iff the waker slot is Some) holds for
a new waiter and is preserved by wake (through its returned state), by
WaitFuture::poll, by WaitFuture::drop, and by reset under the precondition
that the state is not Waiting. -/
theorem waiter_invariant_preserved :
    WaiterInv WaiterInner.new
    ∧ (∀ w e, WaiterInv w → w.wake = some e → WaiterInv e.st)
    ∧ (∀ w cx, WaiterInv w → WaiterInv (WaitFuture.poll w cx).2)
    ∧ (∀ w, WaiterInv w → WaiterInv (WaitFuture.drop w))
    ∧ (∀ w, WaiterInv w → w.state ≠ .Waiting → WaiterInv (Waiter.reset w)) := by
  refine ⟨by decide, ?_, ?_, ?_, ?_⟩
  · rintro ⟨s, rw⟩ e hinv hwake
    cases s with
    | Idle =>
      have hrw : rw = none := by
        cases rw with
        | none => rfl
        | some x => simp [WaiterInv] at hinv
      subst hrw
      have he : e = ⟨some (), ⟨.Woken, none⟩, none⟩ := by
        simpa [WaiterInner.wake] using hwake.symm
      subst he
      simp [WaiterInv]
    | Waiting =>
      have hrw : ∃ x, rw = some x := by
        have := hinv.mp rfl
        cases rw with
        | none => simp at this
        | some x => exact ⟨x, rfl⟩
      obtain ⟨x, rfl⟩ := hrw
      have he : e = ⟨some (), ⟨.Woken, none⟩, some x⟩ := by
        simpa [WaiterInner.wake] using hwake.symm
      subst he
      simp [WaiterInv]
    | Woken =>
      have he : e = ⟨none, ⟨.Woken, rw⟩, none⟩ := by
        simpa [WaiterInner.wake] using hwake.symm
      subst he
      exact hinv
  · rintro ⟨s, rw⟩ cx hinv
    cases s with
    | Idle => simp [WaitFuture.poll, WaiterInv]
    | Waiting => simp [WaitFuture.poll, WaiterInv]
    | Woken => exact hinv
  · rintro ⟨s, rw⟩ hinv
    cases s with
    | Waiting => simp [WaitFuture.drop, WaiterInv]
    | Idle => exact hinv
    | Woken => exact hinv
  · rintro ⟨s, rw⟩ hinv hs
    cases s with
    | Waiting => exact absurd rfl hs
    | Idle =>
      have hrw : rw = none := by
        cases rw with
        | none => rfl
        | some x => simp [WaiterInv] at hinv
      subst hrw
      simp [Waiter.reset, WaiterInv]
    | Woken =>
      have hrw : rw = none := by
        cases rw with
        | none => rfl
        | some x => simp [WaiterInv] at hinv
      subst hrw
      simp [Waiter.reset, WaiterInv]

/-- C7 witness: polling a fresh Idle waiter stores the task's waker and the
invariant holds on the resulting Waiting waiter. -/
theorem waiter_invariant_preserved_witness :
    WaiterInv (WaitFuture.poll ⟨WaiterState.Idle, none⟩ 4).2 :=
  waiter_invariant_preserved.2.2.1 ⟨.Idle, none⟩ 4 (by decide)

/-- C8: on any non-stream (datagram) SocketFile, listen, accept and shutdown
each return the invalid-argument error — a well-defined value, never a panic
(the model is total) — whatever the arguments; this error branch is the only
non-stream outcome of the three operations. -/
theorem datagram_stream_only_ops_einval (sf : SocketFile) (h : sf.is_stream = false) :
    ∀ (backlog : Nat) (nonblocking : Bool) (how : Shutdown),
      sf.listen backlog = .error .EINVAL
      ∧ sf.accept nonblocking = .error .EINVAL
      ∧ sf.shutdown how = .error .EINVAL := by
  intro backlog nonblocking how
  obtain ⟨sock⟩ := sf
  cases sock with
  | Ipv4Stream s => simp [SocketFile.is_stream] at h
  | UnixStream s => simp [SocketFile.is_stream] at h
  | Ipv4Datagram s => exact ⟨rfl, rfl, rfl⟩
  | UnixDatagram s => exact ⟨rfl, rfl, rfl⟩

/-- C8 witness: a concrete Ipv4 datagram socket gets the invalid-argument
error from listen, accept and shutdown. -/
theorem datagram_stream_only_ops_einval_witness :
    SocketFile.listen ⟨.Ipv4Datagram ⟨fun _ => .ok (), fun _ _ => .ok 0⟩⟩ 128 = .error .EINVAL
    ∧ SocketFile.accept ⟨.Ipv4Datagram ⟨fun _ => .ok (), fun _ _ => .ok 0⟩⟩ false = .error .EINVAL
    ∧ SocketFile.shutdown ⟨.Ipv4Datagram ⟨fun _ => .ok (), fun _ _ => .ok 0⟩⟩ .Both
        = .error .EINVAL :=
  datagram_stream_only_ops_einval ⟨.Ipv4Datagram ⟨fun _ => .ok (), fun _ _ => .ok 0⟩⟩
    rfl 128 false .Both

/-- C9: connect on a datagram variant with the unspecified address passes
`none` (disassociation) to the inner datagram socket; with a specified address
it coerces to the variant's family and passes `some` of the typed address; and
connect on a stream variant with the unspecified address is an
invalid-argument error. -/
theorem socket_connect_spec :
    (∀ (s : DatagramSock Ipv4SocketAddr),
        SocketFile.connect ⟨AnySocket.Ipv4Datagram s⟩ AnyAddr.Unspec = s.connectRes none)
    ∧ (∀ (s : DatagramSock UnixAddr),
        SocketFile.connect ⟨AnySocket.UnixDatagram s⟩ AnyAddr.Unspec = s.connectRes none)
    ∧ (∀ (s : DatagramSock Ipv4SocketAddr) (a : Ipv4SocketAddr),
        SocketFile.connect ⟨AnySocket.Ipv4Datagram s⟩ (AnyAddr.Ipv4 a)
          = s.connectRes (some a))
    ∧ (∀ (s : DatagramSock UnixAddr) (a : UnixAddr),
        SocketFile.connect ⟨AnySocket.UnixDatagram s⟩ (AnyAddr.Unix a)
          = s.connectRes (some a))
    ∧ (∀ (s : StreamSock Ipv4SocketAddr),
        SocketFile.connect ⟨AnySocket.Ipv4Stream s⟩ AnyAddr.Unspec = .error .EINVAL)
    ∧ (∀ (s : StreamSock UnixAddr),
        SocketFile.connect ⟨AnySocket.UnixStream s⟩ AnyAddr.Unspec = .error .EINVAL) :=
  ⟨fun _ => rfl, fun _ => rfl, fun _ _ => rfl, fun _ _ => rfl, fun _ => rfl, fun _ => rfl⟩

/-- C10 counterexample: sendmsg on a stream socket whose connection state is
false (not connected) and a Some destination address still returns the
already-connected error without invoking the inner sendmsg — the dispatch
never consults the connection state, so the error is not raised exactly on
connected streams as claimed. -/
theorem sendmsg_eisconn_counterexample :
    (SocketFile.sendmsg
        ⟨.Ipv4Stream ⟨false, fun _ => .ok (), fun _ => .ok 0, fun _ => .ok (),
          fun _ => .ok (), fun _ => .ok 0⟩⟩
        (some (.Ipv4 1)) 0) = (.error .EISCONN, false)
    ∧ (⟨false, fun _ => .ok (), fun _ => .ok 0, fun _ => .ok (), fun _ => .ok (),
        fun _ => .ok 0⟩ : StreamSock Ipv4SocketAddr).connected = false :=
  ⟨rfl, rfl⟩

/-- C10 (amended): sendmsg returns the already-connected error with the inner
sendmsg not invoked exactly when the socket is a stream variant and the
destination address is Some — regardless of the stream's connection state. -/
theorem sendmsg_eisconn_amended (sf : SocketFile) (addr : Option AnyAddr)
    (flags : SendFlags) :
    sf.sendmsg addr flags = (.error .EISCONN, false)
      ↔ (sf.is_stream = true ∧ addr.isSome = true) := by
  obtain ⟨sock⟩ := sf
  cases sock with
  | Ipv4Stream s =>
    cases addr with
    | none => simp [SocketFile.sendmsg, SocketFile.is_stream]
    | some a => simp [SocketFile.sendmsg, SocketFile.is_stream]
  | UnixStream s =>
    cases addr with
    | none => simp [SocketFile.sendmsg, SocketFile.is_stream]
    | some a => simp [SocketFile.sendmsg, SocketFile.is_stream]
  | Ipv4Datagram s =>
    cases addr with
    | none => simp [SocketFile.sendmsg, SocketFile.is_stream]
    | some a =>
      cases a <;> simp [SocketFile.sendmsg, SocketFile.is_stream, AnyAddr.to_ipv4]
  | UnixDatagram s =>
    cases addr with
    | none => simp [SocketFile.sendmsg, SocketFile.is_stream]
    | some a =>
      cases a <;> simp [SocketFile.sendmsg, SocketFile.is_stream, AnyAddr.to_unix]

end Occlum
